import Mathlib

/-!
Verification development for the DJ Basin investment model.

The Python sources are embedded shallowly over the real numbers: every
float computation of the code is modelled as the corresponding exact real
computation, fallible code is modelled with Except (a division by zero
raised by Python becomes an error value), and the module-global mutable
variable of the yield-curve module becomes explicit state passing.
Loops are modelled by structural recursion (with the iteration bound of
the source as fuel where the source bounds the loop).
-/

/-- config.py: CO_INVEST_MM = 195.0. -/
noncomputable def CO_INVEST_MM : ℝ := 195

/-- config.py: TOTAL_EQUITY_MM = 710.0. -/
noncomputable def TOTAL_EQUITY_MM : ℝ := 710

/-- config.py: CO_INVEST_SHARE = CO_INVEST_MM / TOTAL_EQUITY_MM. -/
noncomputable def CO_INVEST_SHARE : ℝ := CO_INVEST_MM / TOTAL_EQUITY_MM

/-- config.py: GA_RATE = 0.0075. -/
noncomputable def GA_RATE : ℝ := 75 / 10000

/-- config.py: TOTAL_NAV_MM = sum of the NAV_BY_CATEGORY values
691 + 123 + 39 + 91 + 108 = 1052. -/
noncomputable def TOTAL_NAV_MM : ℝ := 1052

/-- config.py: REMAINING_RESERVES_PCT = 0.15. -/
noncomputable def REMAINING_RESERVES_PCT : ℝ := 15 / 100

/-- config.py: YIELD_Y1 = 0.269. -/
noncomputable def YIELD_Y1 : ℝ := 269 / 1000

/-- config.py: YIELD_Y2 = 0.266. -/
noncomputable def YIELD_Y2 : ℝ := 266 / 1000

/-- config.py: YIELD_Y3 = 0.251. -/
noncomputable def YIELD_Y3 : ℝ := 251 / 1000

/-- config.py: AVG_10Y_YIELD = 0.186. -/
noncomputable def AVG_10Y_YIELD : ℝ := 186 / 1000

/-- config.py: DECLINE_CURVE_PARAMS base_b_factor = 0.9. -/
noncomputable def base_b_factor : ℝ := 9 / 10

/-- config.py: DECLINE_CURVE_PARAMS base_Di = 0.25. -/
noncomputable def base_Di : ℝ := 1 / 4

/-- test_delay_scenarios.py: PDP_SHARE = NAV_BY_CATEGORY of PDP divided by
TOTAL_NAV_MM, that is 691 / 1052. -/
noncomputable def PDP_SHARE : ℝ := 691 / 1052

/-- test_delay_scenarios.py: NON_PDP_SHARE = 1 - PDP_SHARE. -/
noncomputable def NON_PDP_SHARE : ℝ := 1 - PDP_SHARE

/-- cash_flows.py, estimate_terminal_value: the nav_multiple cascade on the
Year-10 price factor (the four sentiment bands of the source, written as a
named function so that theorems can speak about it). -/
noncomputable def nav_multiple (year_10_price_factor : ℝ) : ℝ :=
  if year_10_price_factor ≥ 9/10 then 19/20
  else if year_10_price_factor ≥ 7/10 then 17/20
  else if year_10_price_factor ≥ 1/2 then 3/4
  else 3/5

/-- cash_flows.py, estimate_terminal_value with the default
remaining_reserves_pct (every caller in the repository uses the default). -/
noncomputable def estimate_terminal_value (year_10_price_factor : ℝ) : ℝ :=
  TOTAL_NAV_MM * REMAINING_RESERVES_PCT * year_10_price_factor *
    nav_multiple year_10_price_factor * CO_INVEST_SHARE

/-- cash_flows.py, build_cash_flows: Year 0 is minus the investment, then one
entry per (yield, price factor) pair, with G and A deducted when include_ga
and the terminal value added at the year of index 9. -/
noncomputable def build_cash_flows (yield_curve price_factors_by_year : List ℝ)
    (include_ga : Bool) : List ℝ :=
  -CO_INVEST_MM ::
    (yield_curve.zip price_factors_by_year).enum.map (fun yp =>
      let annual := CO_INVEST_MM * yp.2.1 * yp.2.2
      let annual := if include_ga then annual - CO_INVEST_MM * GA_RATE else annual
      if yp.1 = 9 then annual + estimate_terminal_value yp.2.2 else annual)

/-- cash_flows.py, the inner npv of calculate_irr (and the body of
calculate_npv): the discounted sum of the enumerated cash flows. -/
noncomputable def npv (rate : ℝ) (cfs : List ℝ) : ℝ :=
  (cfs.enum.map (fun p => p.2 / (1 + rate) ^ p.1)).sum

/-- cash_flows.py, the inner npv_derivative of calculate_irr. -/
noncomputable def npv_derivative (rate : ℝ) (cfs : List ℝ) : ℝ :=
  (cfs.enum.map (fun p => -(p.1 : ℝ) * p.2 / (1 + rate) ^ (p.1 + 1))).sum

/-- cash_flows.py, calculate_irr: the acceptance band applied to the
fallthrough rate when the Newton-Raphson loop exits without converging. -/
noncomputable def irr_band (rate : ℝ) : Option ℝ :=
  if -(99/100) < rate ∧ rate < 2 then some rate else none

/-- cash_flows.py, the Newton-Raphson loop of calculate_irr, with the
remaining iteration count as fuel.  When the current rate is exactly -1 and
the series is nonempty, Python raises ZeroDivisionError while evaluating npv
or npv_derivative (division by (1 + rate) to a positive power); this is
modelled as the error case.  Exiting the loop (fuel exhausted or the
derivative magnitude below 1e-10) applies the acceptance band; a converged
new rate is returned directly. -/
noncomputable def irr_newton_loop : ℕ → ℝ → List ℝ → Except Unit (Option ℝ)
  | 0, rate, _ => .ok (irr_band rate)
  | n + 1, rate, cfs =>
    if rate = -1 ∧ 1 ≤ cfs.length then .error ()
    else
      let f := npv rate cfs
      let f_prime := npv_derivative rate cfs
      if |f_prime| < 1/10^10 then .ok (irr_band rate)
      else
        let new_rate := rate - f / f_prime
        if |new_rate - rate| < 1/10^8 then .ok (some new_rate)
        else irr_newton_loop n new_rate cfs

/-- cash_flows.py, calculate_irr with the default max_iterations = 100 and
tolerance = 1e-8 (every caller in the repository uses the defaults), starting
from the initial guess 0.10. -/
noncomputable def calculate_irr (cfs : List ℝ) : Except Unit (Option ℝ) :=
  irr_newton_loop 100 (1/10) cfs

/-- cash_flows.py, calculate_roi: sum of the flows after Year 0 over the
absolute Year-0 flow. -/
noncomputable def calculate_roi (cfs : List ℝ) : ℝ :=
  (cfs.drop 1).sum / |cfs.getD 0 0|

/-- cash_flows.py, calculate_payback: the cumulative cash flow through the
year of index t (np.cumsum evaluated at position t). -/
noncomputable def cumulative_cf (cfs : List ℝ) (t : ℕ) : ℝ :=
  (cfs.take (t + 1)).sum

/-- cash_flows.py, the search loop of calculate_payback over t = 1, 2, ...,
with fuel covering the remaining indices. -/
noncomputable def payback_loop (cfs : List ℝ) : ℕ → ℕ → Option ℝ
  | 0, _ => none
  | fuel + 1, t =>
    if cfs.length ≤ t then none
    else if 0 ≤ cumulative_cf cfs t then
      some ((t : ℝ) - 1 + -(cumulative_cf cfs (t - 1)) / cfs.getD t 0)
    else payback_loop cfs fuel (t + 1)

/-- cash_flows.py, calculate_payback: first index t at or after 1 where the
cumulative cash flow is nonnegative, interpolated inside that year; none when
the cumulative flow stays negative through the whole horizon. -/
noncomputable def calculate_payback (cfs : List ℝ) : Option ℝ :=
  payback_loop cfs cfs.length 1

/-- cash_flows.py, calculate_npv. -/
noncomputable def calculate_npv (cfs : List ℝ) (discount_rate : ℝ) : ℝ :=
  (cfs.enum.map (fun p => p.2 / (1 + discount_rate) ^ p.1)).sum

/-- yield_curve.py: the Years 1 to 3 disclosed yields. -/
noncomputable def yc_base_yields : List ℝ := [YIELD_Y1, YIELD_Y2, YIELD_Y3]

/-- yield_curve.py: the raw (uncalibrated) Years 4 to 10 Arps hyperbolic tail,
q3 divided by (1 + b Di t) to the power 1 over b, floored at the economic
limit 0.03, for t = 1 to 7. -/
noncomputable def yc_raw_tail (b_factor Di : ℝ) : List ℝ :=
  (List.range' 1 7).map (fun t =>
    max (YIELD_Y3 / (1 + b_factor * Di * (t : ℝ)) ^ ((1:ℝ) / b_factor)) (3/100))

/-- yield_curve.py: the is_base_case test of generate_hyperbolic_yield_curve. -/
def yc_is_base_case (b_factor Di : ℝ) : Prop :=
  b_factor = base_b_factor ∧ Di = base_Di

noncomputable instance (b_factor Di : ℝ) : Decidable (yc_is_base_case b_factor Di) :=
  inferInstanceAs (Decidable (b_factor = base_b_factor ∧ Di = base_Di))

/-- yield_curve.py, generate_hyperbolic_yield_curve, with the module-global
BASE_YIELD_SUM threaded as explicit state (second component; the Python
global is written inside the calibration branch and read nowhere in the
function).  Arguments are the values after the None-default substitution of
the source.  Returns the curve and the new state. -/
noncomputable def generate_hyperbolic_yield_curve (b_factor Di : ℝ)
    (calibrate_base : Bool) (base_yield_sum : Option ℝ) :
    List ℝ × Option ℝ :=
  let base_yields := yc_base_yields
  let tail_yields := yc_raw_tail b_factor Di
  if yc_is_base_case b_factor Di ∨ calibrate_base = true then
    let target_sum := AVG_10Y_YIELD * 10
    let known_sum := base_yields.sum
    let remaining_target := target_sum - known_sum
    let tail_sum := tail_yields.sum
    let tail_scaled :=
      if tail_sum > 0 then tail_yields.map (fun y => y * (remaining_target / tail_sum))
      else tail_yields
    (base_yields ++ tail_scaled, some (base_yields.sum + tail_scaled.sum))
  else
    (base_yields ++ tail_yields, base_yield_sum)

/-- yield_curve.py, get_base_yield_sum: reads the module global. -/
def get_base_yield_sum (base_yield_sum : Option ℝ) : Option ℝ := base_yield_sum

/-- test_delay_scenarios.py, delay_non_pdp_yields: shifts only the non-PDP
portion of a 10-year yield curve by delay_years using linear interpolation.
Python int(np.floor(d)) is the integer floor and d % 1 is the fractional
part.  The source builds a 10-slot delayed array and adds it to the PDP
component; list reads are modelled with getD, which agrees with the source
on the length-10 curves every caller passes. -/
noncomputable def delay_non_pdp_yields (base_yields : List ℝ) (delay_years : ℝ) :
    List ℝ :=
  if delay_years ≤ 0 then base_yields
  else if 10 ≤ delay_years then base_yields.map (fun y => y * PDP_SHARE)
  else
    let pdp_yields := base_yields.map (fun y => y * PDP_SHARE)
    let non_pdp_yields := base_yields.map (fun y => y * NON_PDP_SHARE)
    let whole_years : ℤ := ⌊delay_years⌋
    let fractional_year : ℝ := Int.fract delay_years
    let delayed := List.ofFn (n := 10) (fun target =>
      let source_year : ℤ := (target : ℤ) - whole_years
      if source_year < 0 then (0 : ℝ)
      else if source_year = 0 then non_pdp_yields.getD 0 0 * (1 - fractional_year)
      else
        (if source_year < (non_pdp_yields.length : ℤ) then
          non_pdp_yields.getD source_year.toNat 0 * (1 - fractional_year) else 0) +
        (if source_year - 1 < (non_pdp_yields.length : ℤ) then
          non_pdp_yields.getD (source_year - 1).toNat 0 * fractional_year else 0))
    List.ofFn (n := 10) (fun t => pdp_yields.getD t 0 + delayed.getD t 0)

/-- Modelled from the spec: the delay transform of spec section 4.1 with the
compounding penalty, which is absent from src (it appears only in the legacy
module of the repository): each delayed non-PDP value is divided by the
penalty factor (1 + capex_inflation) to the delay power times
(1 + opportunity_cost) to the delay power before recombination with the
unchanged PDP component.  With both rates zero the penalty is 1 and this is
exactly the recombination the code performs. -/
noncomputable def delay_non_pdp_yields_spec (capex_inflation opportunity_cost : ℝ)
    (base_yields : List ℝ) (delay_years : ℝ) : List ℝ :=
  if delay_years ≤ 0 then base_yields
  else if 10 ≤ delay_years then base_yields.map (fun y => y * PDP_SHARE)
  else
    let penalty := (1 + capex_inflation) ^ (delay_years : ℝ) *
      (1 + opportunity_cost) ^ (delay_years : ℝ)
    let pdp_yields := base_yields.map (fun y => y * PDP_SHARE)
    let non_pdp_yields := base_yields.map (fun y => y * NON_PDP_SHARE)
    let whole_years : ℤ := ⌊delay_years⌋
    let fractional_year : ℝ := Int.fract delay_years
    let delayed := List.ofFn (n := 10) (fun target =>
      let source_year : ℤ := (target : ℤ) - whole_years
      if source_year < 0 then (0 : ℝ)
      else if source_year = 0 then non_pdp_yields.getD 0 0 * (1 - fractional_year)
      else
        (if source_year < (non_pdp_yields.length : ℤ) then
          non_pdp_yields.getD source_year.toNat 0 * (1 - fractional_year) else 0) +
        (if source_year - 1 < (non_pdp_yields.length : ℤ) then
          non_pdp_yields.getD (source_year - 1).toNat 0 * fractional_year else 0))
    List.ofFn (n := 10) (fun t => pdp_yields.getD t 0 + delayed.getD t 0 / penalty)

/-- config.py PRICE_PARAMS: theta (mean-reversion speed) per commodity,
in the order oil, gas, ngl. -/
noncomputable def price_theta : Fin 3 → ℝ
  | 0 => 3/10
  | 1 => 1/2
  | 2 => 7/20

/-- config.py PRICE_PARAMS: sigma (volatility) per commodity. -/
noncomputable def price_sigma : Fin 3 → ℝ
  | 0 => 1/4
  | 1 => 9/20
  | 2 => 3/10

/-- config.py COMMODITY_MIX weights, in the order oil, gas, ngl. -/
noncomputable def commodity_mix : Fin 3 → ℝ
  | 0 => 32/100
  | 1 => 40/100
  | 2 => 28/100

/-- commodity_price_simulation.py: the lower-triangular Cholesky factor of
the fixed 3 by 3 correlation matrix of config.py, in closed form (the value
np.linalg.cholesky computes for that matrix). -/
noncomputable def chol_factor : Fin 3 → Fin 3 → ℝ
  | 0, 0 => 1
  | 0, 1 => 0
  | 0, 2 => 0
  | 1, 0 => 35/100
  | 1, 1 => Real.sqrt (1 - (35/100)^2)
  | 1, 2 => 0
  | 2, 0 => 75/100
  | 2, 1 => (40/100 - 35/100 * (75/100)) / Real.sqrt (1 - (35/100)^2)
  | 2, 2 => Real.sqrt (1 - (75/100)^2 -
      ((40/100 - 35/100 * (75/100)) / Real.sqrt (1 - (35/100)^2))^2)

/-- commodity_price_simulation.py: corr_z = chol applied to the standard
normal draw vector z of one year. -/
noncomputable def corr_shock (z : Fin 3 → ℝ) (i : Fin 3) : ℝ :=
  chol_factor i 0 * z 0 + chol_factor i 1 * z 1 + chol_factor i 2 * z 2

/-- commodity_price_simulation.py, the per-commodity price recursion of
simulate_commodity_prices for one simulation path: price 0 is 1.0 and each
step adds the Ornstein-Uhlenbeck drift theta (mu - P) dt with mu = 1 and
dt = 1 and the diffusion sigma sqrt(dt) corr_z, floored at 0.2.  The shock
input z gives the correlated-draw vector of each year. -/
noncomputable def commodity_price (z : ℕ → Fin 3 → ℝ) (i : Fin 3) : ℕ → ℝ
  | 0 => 1
  | t + 1 =>
    let current := commodity_price z i t
    let drift := price_theta i * (1 - current) * 1
    let diffusion := price_sigma i * Real.sqrt 1 * corr_shock (z t) i
    max (2/10) (current + drift + diffusion)

/-- commodity_price_simulation.py: the blended price of year t (t at least 1),
the commodity-mix weighted sum of the three commodity prices of that year. -/
noncomputable def blended_price (z : ℕ → Fin 3 → ℝ) (t : ℕ) : ℝ :=
  commodity_mix 0 * commodity_price z 0 t +
  commodity_mix 1 * commodity_price z 1 t +
  commodity_mix 2 * commodity_price z 2 t

/-- commodity_price_simulation.py: the blended path of one simulation,
years 1 through the given horizon. -/
noncomputable def blended_path (z : ℕ → Fin 3 → ℝ) (years : ℕ) : List ℝ :=
  (List.range years).map (fun k => blended_price z (k + 1))

/-- stochastic_decline_curve.py, simulate_decline_curve_risk with
stochastic=True, as a function of the two normal shocks: b is the base
b-factor plus its shock clipped to the interval 0.3 to 1.2, Di is the base
Di plus its shock clipped to 0.10 to 0.45 (np.clip x lo hi is
min (max x lo) hi). -/
noncomputable def simulate_decline_curve_risk (b_shock Di_shock : ℝ) : ℝ × ℝ :=
  (min (max (base_b_factor + b_shock) (3/10)) (12/10),
   min (max (base_Di + Di_shock) (10/100)) (45/100))

/-- analysis.py: the risk_attribution counter dictionary. -/
structure RiskAttribution where
  price : ℕ
  decline : ℕ
  combined : ℕ
  other : ℕ

/-- Componentwise sum of attribution counters. -/
def RiskAttribution.add (a b : RiskAttribution) : RiskAttribution :=
  ⟨a.price + b.price, a.decline + b.decline, a.combined + b.combined,
    a.other + b.other⟩

/-- analysis.py, the loss-attribution branch of run_monte_carlo for one
losing trial: the factors list holds price when avg_price < 0.80 and decline
when b_factor < 0.70; zero factors increment other, one factor increments
that factor, two increment combined. -/
noncomputable def attribution_increment (avg_price b_factor : ℝ) : RiskAttribution :=
  if avg_price < 80/100 then
    if b_factor < 70/100 then ⟨0, 0, 1, 0⟩ else ⟨1, 0, 0, 0⟩
  else
    if b_factor < 70/100 then ⟨0, 1, 0, 0⟩ else ⟨0, 0, 0, 1⟩

/-- analysis.py: the per-trial inputs of run_monte_carlo: the pre-simulated
blended price path and blended average of the trial, and the two normal
shocks consumed by simulate_decline_curve_risk. -/
structure MCTrialInput where
  blended_path : List ℝ
  blended_avg : ℝ
  b_shock : ℝ
  Di_shock : ℝ

/-- analysis.py: the arrays and counters run_monte_carlo returns. -/
structure MCOutput where
  sim_irrs : List ℝ
  sim_rois : List ℝ
  sim_profits : List ℝ
  sim_b_factors : List ℝ
  sim_prices : List ℝ
  risk_attribution : RiskAttribution

/-- analysis.py, run_monte_carlo over a list of per-trial inputs.  Each trial
samples the decline parameters, generates the stressed (uncalibrated) yield
curve, builds cash flows, computes the metrics and appends them; the stored
IRR is the Python expression irr if irr else -1.0, which replaces both None
and the exact value 0.0 by -1.0.  A ZeroDivisionError inside calculate_irr
aborts the whole run (error case).  The curve value is independent of the
module global, which is therefore not threaded here. -/
noncomputable def run_monte_carlo : List MCTrialInput → Except Unit MCOutput
  | [] => .ok ⟨[], [], [], [], [], ⟨0, 0, 0, 0⟩⟩
  | tr :: rest =>
    let bDi := simulate_decline_curve_risk tr.b_shock tr.Di_shock
    let stressed_yields := (generate_hyperbolic_yield_curve bDi.1 bDi.2 false none).1
    let cfs := build_cash_flows stressed_yields tr.blended_path true
    match calculate_irr cfs with
    | .error e => .error e
    | .ok irr =>
      match run_monte_carlo rest with
      | .error e => .error e
      | .ok r =>
        let profit := cfs.sum
        .ok ⟨(match irr with
              | some x => if x = 0 then (-1 : ℝ) else x
              | none => (-1 : ℝ)) :: r.sim_irrs,
             calculate_roi cfs :: r.sim_rois,
             profit :: r.sim_profits,
             bDi.1 :: r.sim_b_factors,
             tr.blended_avg :: r.sim_prices,
             RiskAttribution.add
               (if profit < 0 then attribution_increment tr.blended_avg bDi.1
                else ⟨0, 0, 0, 0⟩) r.risk_attribution⟩

/-- Selector for losing trials attributed to price alone. -/
noncomputable def loss_sel_price (x : ℝ × ℝ × ℝ) : Bool :=
  decide (x.1 < 0) && (decide (x.2.1 < 80/100) && !decide (x.2.2 < 70/100))

/-- Selector for losing trials attributed to decline alone. -/
noncomputable def loss_sel_decline (x : ℝ × ℝ × ℝ) : Bool :=
  decide (x.1 < 0) && (!decide (x.2.1 < 80/100) && decide (x.2.2 < 70/100))

/-- Selector for losing trials attributed to the combined cause. -/
noncomputable def loss_sel_combined (x : ℝ × ℝ × ℝ) : Bool :=
  decide (x.1 < 0) && (decide (x.2.1 < 80/100) && decide (x.2.2 < 70/100))

/-- Selector for losing trials attributed to the other cause. -/
noncomputable def loss_sel_other (x : ℝ × ℝ × ℝ) : Bool :=
  decide (x.1 < 0) && (!decide (x.2.1 < 80/100) && !decide (x.2.2 < 70/100))

/-- The pre-simulated blended price path of the failing trial. -/
noncomputable def mc_failing_path : List ℝ :=
  [1, 1, 1, 1, 1, 1, 1, 4500491860734137/1811326440000000,
   -15062255677734137/1630193796000000, 1]

/-- The failing trial: decline shocks giving b = 1.0 and Di = 0.25 after
clipping, together with the price path above. -/
noncomputable def mc_failing_trial : MCTrialInput :=
  ⟨mc_failing_path, 1, 1/10, 0⟩

/-- The cash flows of the failing trial. -/
noncomputable def mc_failing_cfs : List ℝ :=
  [-195, 20397/400, 20163/400, 18993/400, 75387/2000, 12467/400, 74217/2800,
   2301/100, 56923287664543781/1082466000000000,
   -197392430335543781/1082466000000000, 3593109/62480]

/-- The price path of the C1 counterexample (all entries at least the 0.2
price floor, rising over time). -/
noncomputable def c1_price_path : List ℝ :=
  [2/5, 2/5, 1/2, 1/2, 3/5, 3/5, 7/10, 7/10,
   24675183939574360118996351/3120668743872680000000000,
   1836152302966665201783133/1271551009365000000000000]

/-- The uncalibrated curve at b = 1, Di = 0.25, as a literal list. -/
noncomputable def c1_curve : List ℝ :=
  [269/1000, 266/1000, 251/1000, 251/1250, 251/1500, 251/1750, 251/2000,
   251/2250, 251/2500, 251/2750]

/-- Cash flows of the undelayed counterexample trial. -/
noncomputable def c1_cfs0 : List ℝ :=
  [-195, 39039/2000, 38571/2000, 2301/100, 36231/2000, 36231/2000, 214461/14000,
   62673/4000, 82589/6000, 73326198763572330356989053/478190123180000000000000,
   109148148947202646141651541/1304154881400000000000000]

/-- Cash flows of the one-year-delayed counterexample trial. -/
noncomputable def c1_cfs1 : List ℝ :=
  [-195, 3240003/263000, 1018641/52600, 9893793/420800, 41648841/2104000,
   25588797/1315000, 3746067/230125, 2778633/168320, 182012857/12624000,
   240325224700020618609615133979/1509168028756080000000000000,
   69067772041285607207743146623/816649366210000000000000000]

/-- The delayed trial converges in one Newton step to a rate strictly above
one tenth. -/
noncomputable def c1_irr1_value : ℝ :=
  58396624427401688155944591975493/583966241827521134303156868484675

/-- The normalized (whole years, fractional year) pair the delay transform
effectively uses: delays at most 0 act like (0, 0), delays at least 10 like
(10, 0), and otherwise (floor, fractional part). -/
noncomputable def delay_wf (d : ℝ) : ℤ × ℝ :=
  if d ≤ 0 then (0, 0) else if 10 ≤ d then (10, 0) else (⌊d⌋, Int.fract d)

/-- The non-PDP yield mass of source year j (zero outside the horizon). -/
noncomputable def npdpN (y : List ℝ) (j : ℤ) : ℝ :=
  if 0 ≤ j ∧ j < 10 then y.getD j.toNat 0 * NON_PDP_SHARE else 0

/-- Cumulative non-PDP mass through source year k. -/
noncomputable def npdpC (y : List ℝ) (k : ℤ) : ℝ :=
  ∑ t ∈ Finset.range 10, if (t : ℤ) ≤ k then npdpN y t else 0

/-- The delayed non-PDP mass arriving in target year t under delay d. -/
noncomputable def delayMass (y : List ℝ) (d : ℝ) (t : ℕ) : ℝ :=
  (1 - (delay_wf d).2) * npdpN y ((t : ℤ) - (delay_wf d).1) +
  (delay_wf d).2 * npdpN y ((t : ℤ) - (delay_wf d).1 - 1)

/-- The discounted price weight of year index t in the cash-flow sum. -/
noncomputable def npvWeight (P : List ℝ) (r : ℝ) (t : ℕ) : ℝ :=
  CO_INVEST_MM * P.getD t 0 / (1 + r) ^ (t + 1)

lemma list_sum_map_mul (l : List ℝ) (a : ℝ) :
    (l.map (fun y => y * a)).sum = l.sum * a := by
  induction l with
  | nil => simp
  | cons x xs ih => simp [ih]; ring

lemma yc_raw_tail_sum_pos (b Di : ℝ) : 0 < (yc_raw_tail b Di).sum := by
  have h : ∀ x : ℝ, (0:ℝ) < max x (3/100) :=
    fun x => lt_of_lt_of_le (by norm_num) (le_max_right x _)
  simp only [yc_raw_tail, List.range', List.map, List.sum_cons, List.sum_nil]
  have := h (YIELD_Y3 / (1 + b * Di * (1 : ℝ)) ^ ((1:ℝ) / b))
  positivity

/-- The calibrated branch fires exactly on this condition. -/
lemma yc_fire_iff (b Di : ℝ) (cal : Bool) :
    (yc_is_base_case b Di ∨ cal = true) ∨ ¬(yc_is_base_case b Di ∨ cal = true) :=
  Classical.em _

lemma gen_curve_fire (b Di : ℝ) (cal : Bool) (st : Option ℝ)
    (h : yc_is_base_case b Di ∨ cal = true) :
    generate_hyperbolic_yield_curve b Di cal st =
      (yc_base_yields ++
        (yc_raw_tail b Di).map
          (fun y => y * ((AVG_10Y_YIELD * 10 - yc_base_yields.sum) / (yc_raw_tail b Di).sum)),
       some (yc_base_yields.sum +
        ((yc_raw_tail b Di).map
          (fun y => y * ((AVG_10Y_YIELD * 10 - yc_base_yields.sum) / (yc_raw_tail b Di).sum))).sum)) := by
  have hpos : (yc_raw_tail b Di).sum > 0 := yc_raw_tail_sum_pos b Di
  simp only [generate_hyperbolic_yield_curve, if_pos h, if_pos hpos]

lemma gen_curve_nofire (b Di : ℝ) (cal : Bool) (st : Option ℝ)
    (h : ¬(yc_is_base_case b Di ∨ cal = true)) :
    generate_hyperbolic_yield_curve b Di cal st =
      (yc_base_yields ++ yc_raw_tail b Di, st) := by
  simp only [generate_hyperbolic_yield_curve, if_neg h]

lemma rpow_quarter (t : ℝ) : (1 + 1 * (1/4) * t) ^ ((1:ℝ)/1) = 1 + t/4 := by
  have : ((1:ℝ)/1) = 1 := by norm_num
  rw [this, Real.rpow_one]; ring

lemma yc_raw_tail_quarter :
    yc_raw_tail 1 (1/4) =
      [251/1250, 251/1500, 251/1750, 251/2000, 251/2250, 251/2500, 251/2750] := by
  simp only [yc_raw_tail, List.range', List.map]
  norm_num [rpow_quarter, YIELD_Y3, max_def]

lemma rpow_half (t : ℝ) : (1 + 1 * (1/2) * t) ^ ((1:ℝ)/1) = 1 + t/2 := by
  have : ((1:ℝ)/1) = 1 := by norm_num
  rw [this, Real.rpow_one]; ring

lemma yc_raw_tail_half :
    yc_raw_tail 1 (1/2) =
      [251/1500, 251/2000, 251/2500, 251/3000, 251/3500, 251/4000, 251/4500] := by
  simp only [yc_raw_tail, List.range', List.map]
  norm_num [rpow_half, YIELD_Y3, max_def]

/-- C10: a call of generate_hyperbolic_yield_curve whose calibration branch
does not fire leaves the module global BASE_YIELD_SUM unchanged; a call whose
branch fires writes the sum of the returned curve. -/
theorem base_yield_sum_frame (b Di : ℝ) (cal : Bool) (st : Option ℝ) :
    (¬(yc_is_base_case b Di ∨ cal = true) →
      (generate_hyperbolic_yield_curve b Di cal st).2 = st) ∧
    ((yc_is_base_case b Di ∨ cal = true) →
      (generate_hyperbolic_yield_curve b Di cal st).2 =
        some ((generate_hyperbolic_yield_curve b Di cal st).1).sum) := by
  constructor
  · intro h
    rw [gen_curve_nofire b Di cal st h]
  · intro h
    rw [gen_curve_fire b Di cal st h]
    simp [List.sum_append]

/-- C10 witness: a stressed call (b = 1, so not the base case, calibration
off) leaves a previously recorded state untouched. -/
theorem base_yield_sum_frame_witness :
    (generate_hyperbolic_yield_curve 1 (1/4) false (some 5)).2 = some 5 :=
  (base_yield_sum_frame 1 (1/4) false (some 5)).1
    (by
      rintro (⟨h, -⟩ | h)
      · rw [base_b_factor] at h; norm_num at h
      · exact Bool.false_ne_true h)

/-- C3: the curve generator rescales exactly when the supplied pair is the
canonical base case or calibration is requested, and then the returned curve
sums to AVG_10Y_YIELD times 10 = 1.86 exactly; the curve value never depends
on the module global (so no call order or prior call can leak into it); in
every other case the tail is the raw uncalibrated Arps tail, and the
uncalibrated sum genuinely varies with the parameters. -/
theorem yield_curve_calibration (b Di : ℝ) (cal : Bool) (st st' : Option ℝ) :
    ((yc_is_base_case b Di ∨ cal = true) →
      ((generate_hyperbolic_yield_curve b Di cal st).1).sum = AVG_10Y_YIELD * 10) ∧
    (generate_hyperbolic_yield_curve b Di cal st).1 =
      (generate_hyperbolic_yield_curve b Di cal st').1 ∧
    (¬(yc_is_base_case b Di ∨ cal = true) →
      (generate_hyperbolic_yield_curve b Di cal st).1 =
        yc_base_yields ++ yc_raw_tail b Di) ∧
    ((generate_hyperbolic_yield_curve 1 (1/4) false none).1).sum ≠
      ((generate_hyperbolic_yield_curve 1 (1/2) false none).1).sum := by
  have hnb : ∀ Di' : ℝ, ¬(yc_is_base_case 1 Di' ∨ false = true) := by
    rintro Di' (⟨h, -⟩ | h)
    · rw [base_b_factor] at h; norm_num at h
    · exact Bool.false_ne_true h
  refine ⟨?_, ?_, ?_, ?_⟩
  · intro h
    rw [gen_curve_fire b Di cal st h]
    have hpos := yc_raw_tail_sum_pos b Di
    rw [List.sum_append, list_sum_map_mul]
    field_simp
  · rcases Classical.em (yc_is_base_case b Di ∨ cal = true) with h | h
    · rw [gen_curve_fire b Di cal st h, gen_curve_fire b Di cal st' h]
    · rw [gen_curve_nofire b Di cal st h, gen_curve_nofire b Di cal st' h]
  · intro h
    rw [gen_curve_nofire b Di cal st h]
  · rw [gen_curve_nofire 1 (1/4) false none (hnb _),
      gen_curve_nofire 1 (1/2) false none (hnb _),
      yc_raw_tail_quarter, yc_raw_tail_half]
    simp only [yc_base_yields, YIELD_Y1, YIELD_Y2, YIELD_Y3, List.sum_append,
      List.sum_cons, List.sum_nil]
    norm_num

/-- C3 witness: an explicitly calibrated call at a non-base pair sums to the
deck target exactly. -/
theorem yield_curve_calibration_witness :
    ((generate_hyperbolic_yield_curve 1 (1/4) true none).1).sum = AVG_10Y_YIELD * 10 :=
  (yield_curve_calibration 1 (1/4) true none none).1 (Or.inr rfl)

/-- C6: every per-commodity per-year simulated price factor is at least 0.2
(the floor is applied after each step), and every blended yearly value is at
least 0.2, in particular positive. -/
theorem commodity_price_floor (z : ℕ → Fin 3 → ℝ) (i : Fin 3) (t : ℕ)
    (ht : 1 ≤ t) :
    2/10 ≤ commodity_price z i t ∧ 2/10 ≤ blended_price z t ∧
      0 < blended_price z t := by
  have floor : ∀ (j : Fin 3) (s : ℕ), 1 ≤ s → (2:ℝ)/10 ≤ commodity_price z j s := by
    intro j s hs
    match s, hs with
    | n + 1, _ => exact le_max_left _ _
  have h0 := floor 0 t ht
  have h1 := floor 1 t ht
  have h2 := floor 2 t ht
  have hb : 2/10 ≤ blended_price z t := by
    rw [blended_price]
    have e0 : commodity_mix 0 = 32/100 := rfl
    have e1 : commodity_mix 1 = 40/100 := rfl
    have e2 : commodity_mix 2 = 28/100 := rfl
    rw [e0, e1, e2]
    nlinarith
  exact ⟨floor i t ht, hb, lt_of_lt_of_le (by norm_num) hb⟩

/-- C6 witness at the zero-shock path, year 1. -/
theorem commodity_price_floor_witness :
    2/10 ≤ commodity_price (fun _ _ => 0) 0 1 ∧
      2/10 ≤ blended_price (fun _ _ => 0) 1 ∧ 0 < blended_price (fun _ _ => 0) 1 :=
  commodity_price_floor (fun _ _ => 0) 0 1 (by norm_num)

/-- C8: build_cash_flows on 10-element inputs always returns exactly 11
values; Year 0 is minus the fixed investment; Years 1 to 10 each equal
investment times yield times price minus the fixed G and A charge (include_ga
true), Year 10 additionally the terminal value; the terminal value is
remaining NAV times price times sentiment multiple times co-invest share,
with the sentiment multiple the monotone step function taking 0.60, 0.75,
0.85, 0.95 on the bands split at 0.5, 0.7, 0.9. -/
theorem build_cash_flows_spec (y p : List ℝ) (hy : y.length = 10)
    (hp : p.length = 10) :
    (build_cash_flows y p true).length = 11 ∧
    (build_cash_flows y p true).getD 0 0 = -CO_INVEST_MM ∧
    (∀ t : ℕ, t < 10 →
      (build_cash_flows y p true).getD (t + 1) 0 =
        CO_INVEST_MM * y.getD t 0 * p.getD t 0 - CO_INVEST_MM * GA_RATE +
          (if t = 9 then estimate_terminal_value (p.getD 9 0) else 0)) ∧
    (∀ q : ℝ, estimate_terminal_value q =
      TOTAL_NAV_MM * REMAINING_RESERVES_PCT * q * nav_multiple q * CO_INVEST_SHARE) ∧
    Monotone nav_multiple ∧
    (∀ q : ℝ,
      (q < 1/2 → nav_multiple q = 3/5) ∧
      (1/2 ≤ q → q < 7/10 → nav_multiple q = 3/4) ∧
      (7/10 ≤ q → q < 9/10 → nav_multiple q = 17/20) ∧
      (9/10 ≤ q → nav_multiple q = 19/20)) := by
  have hlen : ((y.zip p).enum.map (fun yp : ℕ × ℝ × ℝ =>
      let annual := CO_INVEST_MM * yp.2.1 * yp.2.2
      let annual := if true = true then annual - CO_INVEST_MM * GA_RATE else annual
      if yp.1 = 9 then annual + estimate_terminal_value yp.2.2 else annual)).length = 10 := by
    simp [hy, hp]
  refine ⟨?_, rfl, ?_, fun q => rfl, ?_, ?_⟩
  · simp [build_cash_flows, hy, hp]
  · intro t ht
    show ((y.zip p).enum.map _).getD t 0 = _
    have ht' : t < ((y.zip p).enum.map (fun yp : ℕ × ℝ × ℝ =>
        let annual := CO_INVEST_MM * yp.2.1 * yp.2.2
        let annual := if true = true then annual - CO_INVEST_MM * GA_RATE else annual
        if yp.1 = 9 then annual + estimate_terminal_value yp.2.2 else annual)).length := by
      rw [hlen]; exact ht
    have hty : t < y.length := by rw [hy]; exact ht
    have htp : t < p.length := by rw [hp]; exact ht
    rw [List.getD_eq_getElem _ 0 ht']
    rw [List.getElem_map, List.getElem_enum, List.getElem_zip]
    rw [List.getD_eq_getElem y 0 hty, List.getD_eq_getElem p 0 htp]
    by_cases h9 : t = 9
    · subst h9
      rw [List.getD_eq_getElem p 0 htp]
      simp
    · simp [h9]
  · intro a b hab
    unfold nav_multiple
    split_ifs
    all_goals push_neg at *
    all_goals try norm_num
    all_goals linarith
  · intro q
    refine ⟨?_, ?_, ?_, ?_⟩
    · intro h
      rw [nav_multiple, if_neg (by push_neg; linarith), if_neg (by push_neg; linarith),
        if_neg (by push_neg; linarith)]
    · intro h1 h2
      rw [nav_multiple, if_neg (by push_neg; linarith), if_neg (by push_neg; linarith),
        if_pos (by linarith)]
    · intro h1 h2
      rw [nav_multiple, if_neg (by push_neg; linarith), if_pos (by linarith)]
    · intro h
      rw [nav_multiple, if_pos (by linarith)]

/-- C8 witness at constant unit curves. -/
theorem build_cash_flows_spec_witness :
    (build_cash_flows (List.replicate 10 1) (List.replicate 10 1) true).length = 11 :=
  (build_cash_flows_spec (List.replicate 10 1) (List.replicate 10 1)
    (by simp) (by simp)).1

lemma payback_loop_finds (cfs : List ℝ) (t : ℕ)
    (htlen : t < cfs.length) (hpos : 0 ≤ cumulative_cf cfs t) :
    ∀ (fuel t0 : ℕ), cfs.length ≤ t0 + fuel → t0 ≤ t →
    (∀ s : ℕ, t0 ≤ s → s < t → cumulative_cf cfs s < 0) →
    payback_loop cfs fuel t0 =
      some ((t : ℝ) - 1 + -(cumulative_cf cfs (t - 1)) / cfs.getD t 0) := by
  intro fuel
  induction fuel with
  | zero =>
    intro t0 hf h0 _
    omega
  | succ n ih =>
    intro t0 hf h0 hneg
    rw [payback_loop]
    rw [if_neg (by omega)]
    by_cases he : t0 = t
    · subst he
      rw [if_pos hpos]
    · have hlt : t0 < t := lt_of_le_of_ne h0 he
      rw [if_neg (not_le_of_lt (hneg t0 le_rfl hlt))]
      exact ih (t0 + 1) (by omega) (by omega) (fun s hs => hneg s (by omega))

lemma payback_loop_none (cfs : List ℝ) :
    ∀ (fuel t0 : ℕ),
    (∀ s : ℕ, t0 ≤ s → s < cfs.length → cumulative_cf cfs s < 0) →
    payback_loop cfs fuel t0 = none := by
  intro fuel
  induction fuel with
  | zero => intro t0 _; rw [payback_loop]
  | succ n ih =>
    intro t0 hneg
    rw [payback_loop]
    by_cases hl : cfs.length ≤ t0
    · rw [if_pos hl]
    · rw [if_neg hl, if_neg (not_le_of_lt (hneg t0 le_rfl (by omega)))]
      exact ih (t0 + 1) (fun s hs => hneg s (by omega))

/-- C9: calculate_payback returns (t - 1) plus the prior cumulative deficit
over the year-t flow for the smallest index t at or after 1 whose cumulative
cash flow is nonnegative, and returns none when the cumulative flow stays
negative through the whole horizon. -/
theorem calculate_payback_spec (cfs : List ℝ) :
    (∀ t : ℕ, 1 ≤ t → t < cfs.length → 0 ≤ cumulative_cf cfs t →
      (∀ s : ℕ, 1 ≤ s → s < t → cumulative_cf cfs s < 0) →
      calculate_payback cfs =
        some ((t : ℝ) - 1 + -(cumulative_cf cfs (t - 1)) / cfs.getD t 0)) ∧
    ((∀ s : ℕ, 1 ≤ s → s < cfs.length → cumulative_cf cfs s < 0) →
      calculate_payback cfs = none) := by
  constructor
  · intro t h1 htlen hpos hneg
    rw [calculate_payback]
    exact payback_loop_finds cfs t htlen hpos cfs.length 1 (by omega) h1 hneg
  · intro hneg
    rw [calculate_payback]
    exact payback_loop_none cfs cfs.length 1 hneg

/-- C9 witness: the cash-flow series of the spec example, with cumulative
flow -10 at year 3 and +5 at year 4, pays back at exactly 3 + 10/15 years. -/
theorem calculate_payback_spec_witness :
    calculate_payback [(-20 : ℝ), 5, 3, 2, 15] = some (11/3) := by
  have h := (calculate_payback_spec [(-20 : ℝ), 5, 3, 2, 15]).1 4 (by norm_num)
    (by norm_num) (by norm_num [cumulative_cf])
    (by
      intro s hs1 hs4
      interval_cases s <;> norm_num [cumulative_cf])
  rw [h]
  norm_num [cumulative_cf]

/-- C4 amended: the source delay transform recombines the shifted non-PDP
values with the PDP component with no compounding penalty at all: it equals
the spec transform with both penalty rates zero (penalty factor 1). -/
theorem delay_transform_no_penalty (y : List ℝ) (d : ℝ) :
    delay_non_pdp_yields y d = delay_non_pdp_yields_spec 0 0 y d := by
  rw [delay_non_pdp_yields, delay_non_pdp_yields_spec]
  split_ifs with h1 h2
  · rfl
  · rfl
  · norm_num [Real.one_rpow]

/-- C4 counterexample: on the constant unit curve with a one-year delay, no
strictly positive pair of penalty rates makes the code equal to the spec
transform: the code divides by no compounding penalty factor. -/
theorem delay_penalty_counterexample :
    ¬ ∃ capex_inflation opportunity_cost : ℝ,
      0 < capex_inflation ∧ 0 < opportunity_cost ∧
      delay_non_pdp_yields (List.replicate 10 1) 1 =
        delay_non_pdp_yields_spec capex_inflation opportunity_cost
          (List.replicate 10 1) 1 := by
  rintro ⟨c, o, hc, ho, h⟩
  have h1 := congrArg (fun l => l.getD 1 0) h
  simp only at h1
  rw [delay_non_pdp_yields, delay_non_pdp_yields_spec] at h1
  rw [if_neg (by norm_num), if_neg (by norm_num), if_neg (by norm_num),
    if_neg (by norm_num)] at h1
  norm_num [Int.floor_one, Int.fract_one, Real.rpow_one, PDP_SHARE, NON_PDP_SHARE] at h1
  have hP : (1:ℝ) < (1 + c) * (1 + o) := by nlinarith
  have hP0 : ((1:ℝ) + c) * (1 + o) ≠ 0 := by nlinarith
  field_simp [hP0] at h1
  nlinarith [h1, hP]

lemma irr_loop_err (n : ℕ) (rate : ℝ) (cfs : List ℝ)
    (h1 : rate = -1) (h2 : 1 ≤ cfs.length) :
    irr_newton_loop (n + 1) rate cfs = .error () := by
  simp only [irr_newton_loop, if_pos (And.intro h1 h2)]

lemma irr_loop_break (n : ℕ) (rate : ℝ) (cfs : List ℝ)
    (h1 : ¬(rate = -1 ∧ 1 ≤ cfs.length))
    (h2 : |npv_derivative rate cfs| < 1/10^10) :
    irr_newton_loop (n + 1) rate cfs = .ok (irr_band rate) := by
  simp only [irr_newton_loop, if_neg h1, if_pos h2]

lemma irr_loop_converge (n : ℕ) (rate : ℝ) (cfs : List ℝ)
    (h1 : ¬(rate = -1 ∧ 1 ≤ cfs.length))
    (h2 : ¬ |npv_derivative rate cfs| < 1/10^10)
    (h3 : |rate - npv rate cfs / npv_derivative rate cfs - rate| < 1/10^8) :
    irr_newton_loop (n + 1) rate cfs =
      .ok (some (rate - npv rate cfs / npv_derivative rate cfs)) := by
  simp only [irr_newton_loop, if_neg h1, if_neg h2, if_pos h3]

lemma irr_loop_continue (n : ℕ) (rate : ℝ) (cfs : List ℝ)
    (h1 : ¬(rate = -1 ∧ 1 ≤ cfs.length))
    (h2 : ¬ |npv_derivative rate cfs| < 1/10^10)
    (h3 : ¬ |rate - npv rate cfs / npv_derivative rate cfs - rate| < 1/10^8) :
    irr_newton_loop (n + 1) rate cfs =
      irr_newton_loop n (rate - npv rate cfs / npv_derivative rate cfs) cfs := by
  simp only [irr_newton_loop, if_neg h1, if_neg h2, if_neg h3]

lemma irr_band_some (rate x : ℝ) (h : irr_band rate = some x) :
    -(99/100) < x ∧ x < 2 := by
  simp only [irr_band] at h
  split_ifs at h with hb
  rw [Option.some.injEq] at h
  exact h ▸ hb

lemma irr_loop_ok_some (cfs : List ℝ) :
    ∀ (n : ℕ) (rate x : ℝ), irr_newton_loop n rate cfs = .ok (some x) →
      (-(99/100) < x ∧ x < 2) ∨
      ∃ r : ℝ, x = r - npv r cfs / npv_derivative r cfs ∧ |x - r| < 1/10^8 := by
  intro n
  induction n with
  | zero =>
    intro rate x h
    rw [irr_newton_loop] at h
    have hb : irr_band rate = some x := by simpa using h
    exact Or.inl (irr_band_some _ _ hb)
  | succ n ih =>
    intro rate x h
    simp only [irr_newton_loop] at h
    split_ifs at h with h1 h2 h3
    · have hb : irr_band rate = some x := by simpa using h
      exact Or.inl (irr_band_some _ _ hb)
    · have hx : rate - npv rate cfs / npv_derivative rate cfs = x := by simpa using h
      exact Or.inr ⟨rate, hx.symm, hx ▸ h3⟩
    · exact ih _ x h

lemma irr_loop_error_len (cfs : List ℝ) :
    ∀ (n : ℕ) (rate : ℝ), irr_newton_loop n rate cfs = .error () →
      1 ≤ cfs.length := by
  intro n
  induction n with
  | zero =>
    intro rate h
    rw [irr_newton_loop] at h
    exact absurd h (by simp)
  | succ n ih =>
    intro rate h
    simp only [irr_newton_loop] at h
    split_ifs at h with h1 h2 h3
    · exact h1.2
    · exact ih _ h

/-- C2 amended: a result accepted by the convergence test is returned without
the acceptance band, so every numeric result of calculate_irr is either
inside (-0.99, 2.0) or a converged Newton iterate (within tolerance 1e-8 of
its predecessor); and the modelled ZeroDivisionError (an iterate exactly -1)
can only occur on a nonempty series. -/
theorem calculate_irr_band_spec (cfs : List ℝ) :
    (∀ x : ℝ, calculate_irr cfs = .ok (some x) →
      (-(99/100) < x ∧ x < 2) ∨
      ∃ r : ℝ, x = r - npv r cfs / npv_derivative r cfs ∧ |x - r| < 1/10^8) ∧
    (calculate_irr cfs = .error () → 1 ≤ cfs.length) :=
  ⟨fun x h => irr_loop_ok_some cfs 100 (1/10) x h,
   fun h => irr_loop_error_len cfs 100 (1/10) h⟩

lemma c2_npv_start : npv (1/10) [(-1 : ℝ), 91/20, -11/5] = 29/22 := by
  norm_num [npv, List.enum, List.enumFrom]

lemma c2_deriv_start : npv_derivative (1/10) [(-1 : ℝ), 91/20, -11/5] = -5/11 := by
  norm_num [npv_derivative, List.enum, List.enumFrom]

lemma c2_npv_three : npv 3 [(-1 : ℝ), 91/20, -11/5] = 0 := by
  norm_num [npv, List.enum, List.enumFrom]

lemma c2_deriv_three : npv_derivative 3 [(-1 : ℝ), 91/20, -11/5] = -69/320 := by
  norm_num [npv_derivative, List.enum, List.enumFrom]

lemma c2_irr_eval : calculate_irr [(-1 : ℝ), 91/20, -11/5] = .ok (some 3) := by
  rw [calculate_irr]
  rw [irr_loop_continue 99 (1/10) _ (by norm_num)
    (by rw [c2_deriv_start]; rw [not_lt, le_abs]; right; norm_num)
    (by rw [c2_npv_start, c2_deriv_start]; rw [not_lt, le_abs]; left; norm_num)]
  rw [c2_npv_start, c2_deriv_start]
  have hrate : (1:ℝ)/10 - 29/22 / (-5/11) = 3 := by norm_num
  rw [hrate]
  rw [irr_loop_converge 98 3 _ (by norm_num)
    (by rw [c2_deriv_three]; rw [not_lt, le_abs]; right; norm_num)
    (by rw [c2_npv_three, c2_deriv_three]; norm_num)]
  rw [c2_npv_three, c2_deriv_three]
  norm_num

/-- C2 counterexample: a series on which Newton-Raphson converges to exactly
3; calculate_irr returns the numeric result 3 although 3 lies outside the
acceptance band (-0.99, 2.0). -/
theorem calculate_irr_band_counterexample :
    calculate_irr [(-1 : ℝ), 91/20, -11/5] = .ok (some 3) ∧
      ¬(-(99/100) < (3:ℝ) ∧ (3:ℝ) < 2) :=
  ⟨c2_irr_eval, by norm_num⟩

/-- C2 witness for the amended statement, at the out-of-band converging
series. -/
theorem calculate_irr_band_spec_witness :
    (-(99/100) < (3:ℝ) ∧ (3:ℝ) < 2) ∨
      ∃ r : ℝ, (3:ℝ) = r - npv r [(-1 : ℝ), 91/20, -11/5] /
        npv_derivative r [(-1 : ℝ), 91/20, -11/5] ∧ |(3:ℝ) - r| < 1/10^8 :=
  (calculate_irr_band_spec [(-1 : ℝ), 91/20, -11/5]).1 3 c2_irr_eval

/-- C7: on a completed run, each attribution counter equals the number of
losing trials selected by its threshold rule (so each losing trial
increments exactly one counter, profitable trials increment none), and the
four counters sum to the total number of losing trials. -/
theorem mc_attribution_spec :
    ∀ (trials : List MCTrialInput) (r : MCOutput),
    run_monte_carlo trials = .ok r →
    (r.risk_attribution.price =
      (r.sim_profits.zip (r.sim_prices.zip r.sim_b_factors)).countP loss_sel_price ∧
     r.risk_attribution.decline =
      (r.sim_profits.zip (r.sim_prices.zip r.sim_b_factors)).countP loss_sel_decline ∧
     r.risk_attribution.combined =
      (r.sim_profits.zip (r.sim_prices.zip r.sim_b_factors)).countP loss_sel_combined ∧
     r.risk_attribution.other =
      (r.sim_profits.zip (r.sim_prices.zip r.sim_b_factors)).countP loss_sel_other) ∧
    r.risk_attribution.price + r.risk_attribution.decline +
      r.risk_attribution.combined + r.risk_attribution.other =
      r.sim_profits.countP (fun x => decide (x < 0)) := by
  intro trials
  induction trials with
  | nil =>
    intro r h
    rw [run_monte_carlo] at h
    rw [Except.ok.injEq] at h
    subst h
    simp
  | cons tr rest ih =>
    intro r h
    rw [run_monte_carlo] at h
    split at h
    · exact absurd h (by simp)
    · rename_i irr hirr
      split at h
      · exact absurd h (by simp)
      · rename_i r' hrest
        rw [Except.ok.injEq] at h
        subst h
        obtain ⟨⟨ihp, ihd, ihc, iho⟩, ihsum⟩ := ih r' hrest
        simp only [List.zip_cons_cons, List.countP_cons]
        by_cases hl : (build_cash_flows
            ((generate_hyperbolic_yield_curve
              (simulate_decline_curve_risk tr.b_shock tr.Di_shock).1
              (simulate_decline_curve_risk tr.b_shock tr.Di_shock).2 false none).1)
            tr.blended_path true).sum < 0
        · by_cases hq : tr.blended_avg < 80/100 <;>
            by_cases hb : (simulate_decline_curve_risk tr.b_shock tr.Di_shock).1 < 70/100 <;>
            simp [RiskAttribution.add, attribution_increment, hl, hq, hb,
              loss_sel_price, loss_sel_decline, loss_sel_combined, loss_sel_other,
              ihp, ihd, ihc, iho] <;>
            omega
        · simp [RiskAttribution.add, attribution_increment, hl,
            loss_sel_price, loss_sel_decline, loss_sel_combined, loss_sel_other,
            ihp, ihd, ihc, iho]
          omega

lemma mc_failing_bDi : simulate_decline_curve_risk (1/10) 0 = (1, 1/4) := by
  rw [simulate_decline_curve_risk, base_b_factor, base_Di]
  norm_num [max_def, min_def]

lemma hnb_one_quarter : ¬(yc_is_base_case 1 (1/4) ∨ false = true) := by
  rintro (⟨h, -⟩ | h)
  · rw [base_b_factor] at h; norm_num at h
  · exact Bool.false_ne_true h

lemma c5_curve : (generate_hyperbolic_yield_curve 1 (1/4) false none).1 =
    [269/1000, 266/1000, 251/1000, 251/1250, 251/1500, 251/1750, 251/2000,
     251/2250, 251/2500, 251/2750] := by
  rw [gen_curve_nofire 1 (1/4) false none hnb_one_quarter, yc_raw_tail_quarter]
  norm_num [yc_base_yields, YIELD_Y1, YIELD_Y2, YIELD_Y3]

lemma c5_build : build_cash_flows
    [269/1000, 266/1000, 251/1000, 251/1250, 251/1500, 251/1750, 251/2000,
     251/2250, 251/2500, 251/2750] mc_failing_path true = mc_failing_cfs := by
  rw [build_cash_flows, mc_failing_path, mc_failing_cfs]
  norm_num [List.zip, List.zipWith, List.enum, List.enumFrom,
    estimate_terminal_value, nav_multiple, TOTAL_NAV_MM, REMAINING_RESERVES_PCT,
    CO_INVEST_SHARE, CO_INVEST_MM, TOTAL_EQUITY_MM, GA_RATE]

lemma c5_npv1 : npv (1/10) mc_failing_cfs = -1535237404122728267/51047964105720120 := by
  rw [npv, mc_failing_cfs]
  norm_num [List.enum, List.enumFrom]

lemma c5_deriv1 : npv_derivative (1/10) mc_failing_cfs =
    -1535237404122728267/5104796410572012 := by
  rw [npv_derivative, mc_failing_cfs]
  norm_num [List.enum, List.enumFrom]

lemma c5_npv0 : npv 0 mc_failing_cfs = 0 := by
  rw [npv, mc_failing_cfs]
  norm_num [List.enum, List.enumFrom]

lemma c5_deriv0 : npv_derivative 0 mc_failing_cfs =
    -298282444645456219/1082466000000000 := by
  rw [npv_derivative, mc_failing_cfs]
  norm_num [List.enum, List.enumFrom]

lemma c5_irr : calculate_irr mc_failing_cfs = .ok (some 0) := by
  rw [calculate_irr]
  rw [irr_loop_continue 99 (1/10) _ (by norm_num [mc_failing_cfs])
    (by rw [c5_deriv1]; rw [not_lt, le_abs]; right; norm_num)
    (by rw [c5_npv1, c5_deriv1]; rw [not_lt, le_abs]; right; norm_num)]
  rw [c5_npv1, c5_deriv1]
  have hrate : (1:ℝ)/10 - -1535237404122728267/51047964105720120 /
      (-1535237404122728267/5104796410572012) = 0 := by norm_num
  rw [hrate]
  rw [irr_loop_converge 98 0 _ (by norm_num [mc_failing_cfs])
    (by rw [c5_deriv0]; rw [not_lt, le_abs]; right; norm_num)
    (by rw [c5_npv0]; norm_num)]
  rw [c5_npv0]
  norm_num

lemma run_mc_failing_eval :
    run_monte_carlo [mc_failing_trial] =
      .ok ⟨[-1], [1], [0], [1], [1], ⟨0, 0, 0, 0⟩⟩ := by
  rw [run_monte_carlo, mc_failing_trial]
  simp only [mc_failing_bDi]
  rw [c5_curve, c5_build, c5_irr, run_monte_carlo]
  have hsum : mc_failing_cfs.sum = 0 := by
    rw [mc_failing_cfs]; norm_num
  have hroi : calculate_roi mc_failing_cfs = 1 := by
    rw [calculate_roi, mc_failing_cfs]
    norm_num
  simp only [hsum, hroi]
  norm_num [RiskAttribution.add]

/-- C5: at the failing trial, calculate_irr returns the numeric IRR 0.0
(converged, inside the band), yet run_monte_carlo stores the sentinel -1.0 in
sim_irrs, because the Python expression irr if irr else -1.0 treats the float
0.0 as falsy exactly like None. -/
theorem mc_irr_sentinel_bug :
    run_monte_carlo [mc_failing_trial] =
      .ok ⟨[-1], [1], [0], [1], [1], ⟨0, 0, 0, 0⟩⟩ ∧
    calculate_irr (build_cash_flows
      ((generate_hyperbolic_yield_curve 1 (1/4) false none).1)
      mc_failing_path true) = .ok (some 0) ∧
    (0 : ℝ) ≠ -1 := by
  refine ⟨run_mc_failing_eval, ?_, by norm_num⟩
  rw [c5_curve, c5_build]
  exact c5_irr

/-- C7 witness: a completed one-trial run on which the attribution counters
sum to the number of losing trials (zero here). -/
theorem mc_attribution_spec_witness :
    (MCOutput.mk [-1] [1] [0] [1] [1] ⟨0, 0, 0, 0⟩).risk_attribution.price +
    (MCOutput.mk [-1] [1] [0] [1] [1] ⟨0, 0, 0, 0⟩).risk_attribution.decline +
    (MCOutput.mk [-1] [1] [0] [1] [1] ⟨0, 0, 0, 0⟩).risk_attribution.combined +
    (MCOutput.mk [-1] [1] [0] [1] [1] ⟨0, 0, 0, 0⟩).risk_attribution.other =
    (MCOutput.mk [-1] [1] [0] [1] [1] ⟨0, 0, 0, 0⟩).sim_profits.countP
      (fun x => decide (x < 0)) :=
  (mc_attribution_spec [mc_failing_trial] _ run_mc_failing_eval).2

lemma c1_delay_zero : delay_non_pdp_yields c1_curve 0 = c1_curve := by
  rw [delay_non_pdp_yields, if_pos le_rfl]

lemma c1_delay_one : delay_non_pdp_yields c1_curve 1 =
    [185879/1052000, 56183/210400, 269467/1052000, 1146819/5260000,
     1410871/7890000, 1674923/11046000, 77559/589120, 2203027/18936000,
     2467079/23670000, 2731131/28930000] := by
  rw [delay_non_pdp_yields, if_neg (by norm_num), if_neg (by norm_num), c1_curve]
  norm_num [List.ofFn_succ, Int.floor_one, Int.fract_one, PDP_SHARE, NON_PDP_SHARE]

lemma c1_build0 : build_cash_flows c1_curve c1_price_path true = c1_cfs0 := by
  rw [build_cash_flows, c1_curve, c1_price_path, c1_cfs0]
  norm_num [List.zip, List.zipWith, List.enum, List.enumFrom,
    estimate_terminal_value, nav_multiple, TOTAL_NAV_MM, REMAINING_RESERVES_PCT,
    CO_INVEST_SHARE, CO_INVEST_MM, TOTAL_EQUITY_MM, GA_RATE]

lemma c1_build1 : build_cash_flows
    [185879/1052000, 56183/210400, 269467/1052000, 1146819/5260000,
     1410871/7890000, 1674923/11046000, 77559/589120, 2203027/18936000,
     2467079/23670000, 2731131/28930000] c1_price_path true = c1_cfs1 := by
  rw [build_cash_flows, c1_price_path, c1_cfs1]
  norm_num [List.zip, List.zipWith, List.enum, List.enumFrom,
    estimate_terminal_value, nav_multiple, TOTAL_NAV_MM, REMAINING_RESERVES_PCT,
    CO_INVEST_SHARE, CO_INVEST_MM, TOTAL_EQUITY_MM, GA_RATE]

lemma c1_npv0 : npv (1/10) c1_cfs0 = 0 := by
  rw [npv, c1_cfs0]
  norm_num [List.enum, List.enumFrom]

lemma c1_deriv0 : npv_derivative (1/10) c1_cfs0 =
    -4311886936156355086555558141/3720906079477245705354000 := by
  rw [npv_derivative, c1_cfs0]
  norm_num [List.enum, List.enumFrom]

lemma c1_npv1 : npv (1/10) c1_cfs1 = 1/2000000 := by
  rw [npv, c1_cfs1]
  norm_num [List.enum, List.enumFrom]

lemma c1_deriv1 : npv_derivative (1/10) c1_cfs1 =
    -23358649673100845372126274739387/19571965978050312410162040000 := by
  rw [npv_derivative, c1_cfs1]
  norm_num [List.enum, List.enumFrom]

lemma c1_irr0 : calculate_irr c1_cfs0 = .ok (some (1/10)) := by
  rw [calculate_irr]
  rw [irr_loop_converge 99 (1/10) _ (by norm_num [c1_cfs0])
    (by rw [c1_deriv0]; rw [not_lt, le_abs]; right; norm_num)
    (by rw [c1_npv0]; norm_num)]
  rw [c1_npv0]
  norm_num

lemma c1_irr1 : calculate_irr c1_cfs1 = .ok (some c1_irr1_value) := by
  rw [calculate_irr]
  rw [irr_loop_converge 99 (1/10) _ (by norm_num [c1_cfs1])
    (by rw [c1_deriv1]; rw [not_lt, le_abs]; right; norm_num)
    (by rw [c1_npv1, c1_deriv1]; rw [abs_lt]; constructor <;> norm_num)]
  rw [c1_npv1, c1_deriv1, c1_irr1_value]
  norm_num

/-- C1 counterexample: with the stressed decline pair b = 1, Di = 0.25 and a
fixed rising price path, the IRR after a one-year delay is strictly larger
than the IRR with no delay, refuting monotonicity. -/
theorem irr_delay_monotonicity_counterexample :
    ¬ (∀ d1 d2 x1 x2 : ℝ, 0 ≤ d1 → d1 ≤ d2 → d2 ≤ 10 →
      calculate_irr (build_cash_flows
        (delay_non_pdp_yields
          ((generate_hyperbolic_yield_curve 1 (1/4) false none).1) d1)
        c1_price_path true) = .ok (some x1) →
      calculate_irr (build_cash_flows
        (delay_non_pdp_yields
          ((generate_hyperbolic_yield_curve 1 (1/4) false none).1) d2)
        c1_price_path true) = .ok (some x2) →
      x2 ≤ x1) := by
  intro H
  have hc : (generate_hyperbolic_yield_curve 1 (1/4) false none).1 = c1_curve := by
    rw [c5_curve, c1_curve]
  have h1 : calculate_irr (build_cash_flows
      (delay_non_pdp_yields ((generate_hyperbolic_yield_curve 1 (1/4) false none).1) 0)
      c1_price_path true) = .ok (some (1/10)) := by
    rw [hc, c1_delay_zero, c1_build0]
    exact c1_irr0
  have h2 : calculate_irr (build_cash_flows
      (delay_non_pdp_yields ((generate_hyperbolic_yield_curve 1 (1/4) false none).1) 1)
      c1_price_path true) = .ok (some c1_irr1_value) := by
    rw [hc, c1_delay_one, c1_build1]
    exact c1_irr1
  have := H 0 1 (1/10) c1_irr1_value le_rfl (by norm_num) (by norm_num) h1 h2
  rw [c1_irr1_value] at this
  norm_num at this

lemma npdpN_nonneg (y : List ℝ) (hy : ∀ v ∈ y, 0 ≤ v) (j : ℤ) :
    0 ≤ npdpN y j := by
  rw [npdpN]
  split_ifs with h
  · have : 0 ≤ y.getD j.toNat 0 := by
      rcases lt_or_le j.toNat y.length with hl | hl
      · rw [List.getD_eq_getElem y 0 hl]
        exact hy _ (List.getElem_mem hl)
      · rw [List.getD_eq_default y 0 hl]
    have hs : (0:ℝ) ≤ NON_PDP_SHARE := by norm_num [NON_PDP_SHARE, PDP_SHARE]
    exact mul_nonneg this hs
  · exact le_rfl

lemma npdpN_zero_outside (y : List ℝ) (j : ℤ) (h : ¬(0 ≤ j ∧ j < 10)) :
    npdpN y j = 0 := by
  rw [npdpN, if_neg h]

lemma npdpC_neg (y : List ℝ) (k : ℤ) (hk : k < 0) : npdpC y k = 0 := by
  rw [npdpC]
  apply Finset.sum_eq_zero
  intro t _
  rw [if_neg]
  omega

lemma npdpC_nonneg (y : List ℝ) (hy : ∀ v ∈ y, 0 ≤ v) (k : ℤ) :
    0 ≤ npdpC y k := by
  rw [npdpC]
  apply Finset.sum_nonneg
  intro t _
  split_ifs
  · exact npdpN_nonneg y hy t
  · exact le_rfl

lemma npdpC_mono (y : List ℝ) (hy : ∀ v ∈ y, 0 ≤ v) {j k : ℤ} (h : j ≤ k) :
    npdpC y j ≤ npdpC y k := by
  rw [npdpC, npdpC]
  apply Finset.sum_le_sum
  intro t _
  split_ifs with h1 h2 h2
  · exact le_rfl
  · omega
  · exact npdpN_nonneg y hy t
  · exact le_rfl

lemma sum_indicator_npdpN (y : List ℝ) (m : ℤ) :
    (∑ t ∈ Finset.range 10, if (t : ℤ) = m then npdpN y t else 0) = npdpN y m := by
  by_cases hm : 0 ≤ m ∧ m < 10
  · obtain ⟨h0, h10⟩ := hm
    lift m to ℕ using h0 with m'
    have hmem : m' ∈ Finset.range 10 := by
      rw [Finset.mem_range]
      exact_mod_cast h10
    have hcg : (∑ t ∈ Finset.range 10, if (t : ℤ) = (m' : ℤ) then npdpN y t else 0) =
        ∑ t ∈ Finset.range 10, if t = m' then npdpN y (t : ℤ) else 0 :=
      Finset.sum_congr rfl (fun t _ => if_congr Int.natCast_inj rfl rfl)
    rw [hcg, Finset.sum_ite_eq' (Finset.range 10) m' (fun t => npdpN y (t : ℤ)),
      if_pos hmem]
  · rw [npdpN_zero_outside y m hm]
    apply Finset.sum_eq_zero
    intro t ht
    rw [Finset.mem_range] at ht
    rw [if_neg]
    omega

lemma npdpC_succ (y : List ℝ) (k : ℤ) :
    npdpC y (k + 1) = npdpC y k + npdpN y (k + 1) := by
  rw [npdpC, npdpC, ← sum_indicator_npdpN y (k + 1), ← Finset.sum_add_distrib]
  apply Finset.sum_congr rfl
  intro t _
  by_cases h1 : (t : ℤ) ≤ k
  · rw [if_pos (by omega), if_pos h1, if_neg (by omega), add_zero]
  · by_cases h2 : (t : ℤ) = k + 1
    · rw [if_pos (by omega), if_neg h1, if_pos h2, zero_add]
    · rw [if_neg (by omega), if_neg h1, if_neg h2, add_zero]

lemma sum_npdpN_shift (y : List ℝ) (w : ℤ) (hw : 0 ≤ w) :
    ∀ T : ℕ, ∑ t ∈ Finset.range (T + 1), npdpN y ((t : ℤ) - w) =
      npdpC y ((T : ℤ) - w) := by
  intro T
  induction T with
  | zero =>
    rw [Finset.sum_range_one]
    rcases eq_or_lt_of_le hw with h0 | h0
    · rw [← h0]
      norm_num
      rw [show (0:ℤ) = -1 + 1 by ring, npdpC_succ, npdpC_neg y (-1) (by omega)]
      norm_num
    · rw [npdpN_zero_outside y _ (by omega), npdpC_neg y _ (by omega)]
  | succ T ih =>
    rw [Finset.sum_range_succ, ih]
    push_cast
    rw [show ((T:ℤ) + 1 - w) = ((T:ℤ) - w) + 1 by ring, npdpC_succ]

lemma getD_map_mul (l : List ℝ) (a : ℝ) (t : ℕ) (ht : t < l.length) :
    (l.map (fun y => y * a)).getD t 0 = l.getD t 0 * a := by
  rw [List.getD_eq_getElem _ 0 (by simpa using ht), List.getElem_map,
    List.getD_eq_getElem l 0 ht]

lemma getD_ofFn10 (f : Fin 10 → ℝ) (t : ℕ) (ht : t < 10) :
    (List.ofFn f).getD t 0 = f ⟨t, ht⟩ := by
  rw [List.getD_eq_getElem _ 0 (by simpa using ht), List.getElem_ofFn]

lemma delay_wf_le (d : ℝ) (h : d ≤ 0) : delay_wf d = (0, 0) := by
  rw [delay_wf, if_pos h]

lemma delay_wf_ge (d : ℝ) (h1 : ¬ d ≤ 0) (h2 : 10 ≤ d) : delay_wf d = (10, 0) := by
  rw [delay_wf, if_neg h1, if_pos h2]

lemma delay_wf_mid (d : ℝ) (h1 : ¬ d ≤ 0) (h2 : ¬ 10 ≤ d) :
    delay_wf d = (⌊d⌋, Int.fract d) := by
  rw [delay_wf, if_neg h1, if_neg h2]

lemma delay_getD (y : List ℝ) (hy : y.length = 10) (d : ℝ) (t : ℕ) (ht : t < 10) :
    (delay_non_pdp_yields y d).getD t 0 =
      y.getD t 0 * PDP_SHARE + delayMass y d t := by
  have hty : t < y.length := by omega
  simp only [delayMass]
  rw [delay_non_pdp_yields]
  split_ifs with h1 h2
  · -- no delay
    simp only [delay_wf_le d h1]
    rw [npdpN, if_pos (by constructor <;> omega)]
    rw [show ((t:ℤ) - 0).toNat = t by omega]
    rw [NON_PDP_SHARE]
    ring
  · -- delay beyond the horizon
    simp only [delay_wf_ge d h1 h2]
    rw [getD_map_mul y PDP_SHARE t hty]
    rw [npdpN_zero_outside y _ (by omega), npdpN_zero_outside y _ (by omega)]
    ring
  · -- fractional delay inside the horizon
    have hd0 : 0 < d := lt_of_not_le h1
    have hw0 : 0 ≤ ⌊d⌋ := Int.floor_nonneg.mpr (le_of_lt hd0)
    simp only [delay_wf_mid d h1 h2]
    rw [getD_ofFn10 _ t ht]
    dsimp only
    rw [getD_ofFn10 _ t ht]
    dsimp only
    rw [getD_map_mul y PDP_SHARE t hty]
    simp only [List.length_map, hy, Nat.cast_ofNat]
    rcases lt_trichotomy ((t : ℤ) - ⌊d⌋) 0 with hs | hs | hs
    · rw [if_pos hs]
      rw [npdpN_zero_outside y _ (by omega), npdpN_zero_outside y _ (by omega)]
      ring
    · rw [if_neg (not_lt_of_le (le_of_eq hs.symm)), if_pos hs]
      rw [getD_map_mul y NON_PDP_SHARE 0 (by omega)]
      rw [npdpN, if_pos (by omega), npdpN_zero_outside y _ (by omega)]
      rw [show ((t:ℤ) - ⌊d⌋).toNat = 0 by omega]
      ring
    · rw [if_neg (not_lt_of_le (le_of_lt hs)), if_neg (ne_of_gt hs)]
      rw [if_pos (by omega : (t:ℤ) - ⌊d⌋ < 10), if_pos (by omega : (t:ℤ) - ⌊d⌋ - 1 < 10)]
      rw [getD_map_mul y NON_PDP_SHARE _ (by omega : ((t:ℤ) - ⌊d⌋).toNat < y.length)]
      rw [getD_map_mul y NON_PDP_SHARE _ (by omega : ((t:ℤ) - ⌊d⌋ - 1).toNat < y.length)]
      rw [npdpN, if_pos (by omega), npdpN, if_pos (by omega)]
      ring

lemma delay_wf_bounds (d : ℝ) :
    0 ≤ (delay_wf d).1 ∧ 0 ≤ (delay_wf d).2 ∧ (delay_wf d).2 < 1 := by
  rw [delay_wf]
  split_ifs with h1 h2
  · exact ⟨le_rfl, le_rfl, by norm_num⟩
  · exact ⟨by norm_num, le_rfl, by norm_num⟩
  · exact ⟨Int.floor_nonneg.mpr (le_of_lt (lt_of_not_le h1)),
      Int.fract_nonneg d, Int.fract_lt_one d⟩

lemma delay_wf_eff_mono (d1 d2 : ℝ) (h : d1 ≤ d2) :
    ((delay_wf d1).1 : ℝ) + (delay_wf d1).2 ≤
      ((delay_wf d2).1 : ℝ) + (delay_wf d2).2 := by
  have e1 := Int.floor_add_fract d1
  have e2 := Int.floor_add_fract d2
  rw [delay_wf, delay_wf]
  split_ifs <;> dsimp only <;> push_cast <;> linarith

lemma npdpC_dominance (y : List ℝ) (hynn : ∀ v ∈ y, 0 ≤ v)
    (w1 w2 : ℤ) (φ1 φ2 : ℝ)
    (hφ1 : 0 ≤ φ1) (hφ11 : φ1 ≤ 1) (hφ2 : 0 ≤ φ2) (hφ21 : φ2 < 1)
    (heff : (w1 : ℝ) + φ1 ≤ (w2 : ℝ) + φ2) (k : ℤ) :
    (1 - φ2) * npdpC y (k - w2) + φ2 * npdpC y (k - w2 - 1) ≤
      (1 - φ1) * npdpC y (k - w1) + φ1 * npdpC y (k - w1 - 1) := by
  have hw12 : w1 ≤ w2 := by
    by_contra hcon
    push_neg at hcon
    have : ((w2 + 1 : ℤ) : ℝ) ≤ (w1 : ℝ) := by exact_mod_cast hcon
    push_cast at this
    linarith
  rcases eq_or_lt_of_le hw12 with heq | hlt
  · subst heq
    have hφ12 : φ1 ≤ φ2 := by linarith
    have hBA := npdpC_mono y hynn (show k - w1 - 1 ≤ k - w1 by omega)
    nlinarith [mul_nonneg (sub_nonneg.mpr hφ12) (sub_nonneg.mpr hBA)]
  · have hAB2 := npdpC_mono y hynn (show k - w2 - 1 ≤ k - w2 by omega)
    have hmid := npdpC_mono y hynn (show k - w2 ≤ k - w1 - 1 by omega)
    have hAB1 := npdpC_mono y hynn (show k - w1 - 1 ≤ k - w1 by omega)
    nlinarith [mul_nonneg hφ2 (sub_nonneg.mpr hAB2),
      mul_nonneg (sub_nonneg.mpr hφ11) (sub_nonneg.mpr hAB1)]

lemma delay_partial_sum (y : List ℝ) (d : ℝ) (T : ℕ) :
    ∑ t ∈ Finset.range (T + 1), delayMass y d t =
      (1 - (delay_wf d).2) * npdpC y ((T : ℤ) - (delay_wf d).1) +
      (delay_wf d).2 * npdpC y ((T : ℤ) - (delay_wf d).1 - 1) := by
  obtain ⟨hw, hφ, -⟩ := delay_wf_bounds d
  simp only [delayMass]
  rw [Finset.sum_add_distrib, ← Finset.mul_sum, ← Finset.mul_sum]
  rw [sum_npdpN_shift y (delay_wf d).1 hw T]
  have hshift : ∑ t ∈ Finset.range (T + 1),
      npdpN y ((t : ℤ) - (delay_wf d).1 - 1) =
      npdpC y ((T : ℤ) - (delay_wf d).1 - 1) := by
    have := sum_npdpN_shift y ((delay_wf d).1 + 1) (by omega) T
    rw [show ((T : ℤ) - ((delay_wf d).1 + 1)) = (T : ℤ) - (delay_wf d).1 - 1 by ring] at this
    rw [← this]
    apply Finset.sum_congr rfl
    intro t _
    rw [show ((t : ℤ) - ((delay_wf d).1 + 1)) = (t : ℤ) - (delay_wf d).1 - 1 by ring]
  rw [hshift]

lemma abel10 (f g : ℕ → ℝ) :
    ∑ t ∈ Finset.range 10, f t * g t =
      (∑ T ∈ Finset.range 9, (f T - f (T + 1)) * (∑ t ∈ Finset.range (T + 1), g t)) +
      f 9 * (∑ t ∈ Finset.range 10, g t) := by
  simp only [Finset.sum_range_succ, Finset.sum_range_zero]
  ring

lemma build_cash_flows_length (y p : List ℝ) (hy : y.length = 10)
    (hp : p.length = 10) : (build_cash_flows y p true).length = 11 := by
  simp [build_cash_flows, hy, hp]

lemma build_cash_flows_getD_zero (y p : List ℝ) :
    (build_cash_flows y p true).getD 0 0 = -CO_INVEST_MM := rfl

lemma build_cash_flows_getD (y p : List ℝ) (hy : y.length = 10)
    (hp : p.length = 10) (t : ℕ) (ht : t < 10) :
    (build_cash_flows y p true).getD (t + 1) 0 =
      CO_INVEST_MM * y.getD t 0 * p.getD t 0 - CO_INVEST_MM * GA_RATE +
        (if t = 9 then estimate_terminal_value (p.getD 9 0) else 0) := by
  show ((y.zip p).enum.map _).getD t 0 = _
  have ht' : t < ((y.zip p).enum.map (fun yp : ℕ × ℝ × ℝ =>
      let annual := CO_INVEST_MM * yp.2.1 * yp.2.2
      let annual := if true = true then annual - CO_INVEST_MM * GA_RATE else annual
      if yp.1 = 9 then annual + estimate_terminal_value yp.2.2 else annual)).length := by
    simp [hy, hp]
    exact ht
  have hty : t < y.length := by omega
  have htp : t < p.length := by omega
  rw [List.getD_eq_getElem _ 0 ht']
  rw [List.getElem_map, List.getElem_enum, List.getElem_zip]
  rw [List.getD_eq_getElem y 0 hty, List.getD_eq_getElem p 0 htp]
  by_cases h9 : t = 9
  · subst h9
    rw [List.getD_eq_getElem p 0 htp]
    simp
  · simp [h9]

lemma enumFrom_npv_sum (r : ℝ) :
    ∀ (cfs : List ℝ) (k : ℕ),
    ((List.enumFrom k cfs).map (fun p => p.2 / (1 + r) ^ p.1)).sum =
      ∑ t ∈ Finset.range cfs.length, cfs.getD t 0 / (1 + r) ^ (k + t) := by
  intro cfs
  induction cfs with
  | nil => intro k; simp
  | cons a l ih =>
    intro k
    rw [List.enumFrom, List.map_cons, List.sum_cons, ih (k + 1)]
    rw [List.length_cons, Finset.sum_range_succ']
    rw [List.getD_cons_zero, add_zero, add_comm]
    congr 1
    apply Finset.sum_congr rfl
    intro i _
    rw [List.getD_cons_succ]
    rw [show k + 1 + i = k + (i + 1) by ring]

lemma calculate_npv_sum (cfs : List ℝ) (r : ℝ) :
    calculate_npv cfs r = ∑ t ∈ Finset.range cfs.length, cfs.getD t 0 / (1 + r) ^ t := by
  rw [calculate_npv]
  rw [show cfs.enum = List.enumFrom 0 cfs from rfl, enumFrom_npv_sum r cfs 0]
  apply Finset.sum_congr rfl
  intro t _
  rw [Nat.zero_add]

lemma delay_length (y : List ℝ) (hy : y.length = 10) (d : ℝ) :
    (delay_non_pdp_yields y d).length = 10 := by
  rw [delay_non_pdp_yields]
  split_ifs
  · exact hy
  · simp [hy]
  · simp

/-- C1 amended: for every nonnegative 10-year base curve, every positive and
non-increasing 10-year price path, and every discount rate at least 0, the
net present value of the cash flows built on the delay-transformed curve is
non-increasing in the delay. -/
theorem npv_nonincreasing_in_delay (y P : List ℝ) (hy : y.length = 10)
    (hP : P.length = 10) (hynn : ∀ v ∈ y, 0 ≤ v) (hPpos : ∀ q ∈ P, 0 < q)
    (hPmono : ∀ i j : ℕ, i ≤ j → j < 10 → P.getD j 0 ≤ P.getD i 0)
    (r : ℝ) (hr : 0 ≤ r) (d1 d2 : ℝ) (h12 : d1 ≤ d2) :
    calculate_npv (build_cash_flows (delay_non_pdp_yields y d2) P true) r ≤
      calculate_npv (build_cash_flows (delay_non_pdp_yields y d1) P true) r := by
  obtain ⟨hw1, hφ1, hφ11⟩ := delay_wf_bounds d1
  obtain ⟨hw2, hφ2, hφ21⟩ := delay_wf_bounds d2
  have heff := delay_wf_eff_mono d1 d2 h12
  have hl1 := delay_length y hy d1
  have hl2 := delay_length y hy d2
  have hPg : ∀ t : ℕ, t < 10 → 0 < P.getD t 0 := by
    intro t ht
    have htP : t < P.length := by omega
    rw [List.getD_eq_getElem P 0 htP]
    exact hPpos _ (List.getElem_mem htP)
  have hq : ∀ k : ℕ, (0:ℝ) < (1 + r) ^ k := fun k => pow_pos (by linarith) k
  have hD : ∀ T : ℕ, 0 ≤ ∑ t ∈ Finset.range (T + 1),
      (delayMass y d1 t - delayMass y d2 t) := by
    intro T
    rw [Finset.sum_sub_distrib, delay_partial_sum, delay_partial_sum]
    rw [sub_nonneg]
    exact npdpC_dominance y hynn (delay_wf d1).1 (delay_wf d2).1
      (delay_wf d1).2 (delay_wf d2).2 hφ1 (le_of_lt hφ11) hφ2 hφ21 heff (T : ℤ)
  have hκnn : ∀ t : ℕ, t < 10 → 0 ≤ npvWeight P r t := by
    intro t ht
    rw [npvWeight]
    have := hPg t ht
    have h195 : (0:ℝ) < CO_INVEST_MM := by norm_num [CO_INVEST_MM]
    positivity
  have hκmono : ∀ T : ℕ, T < 9 → npvWeight P r (T + 1) ≤ npvWeight P r T := by
    intro T hT
    rw [npvWeight, npvWeight]
    apply div_le_div₀
    · have := hPg T (by omega)
      have h195 : (0:ℝ) < CO_INVEST_MM := by norm_num [CO_INVEST_MM]
      positivity
    · have hmono := hPmono T (T + 1) (by omega) (by omega)
      have h195 : (0:ℝ) ≤ CO_INVEST_MM := by norm_num [CO_INVEST_MM]
      exact mul_le_mul_of_nonneg_left hmono h195
    · exact hq (T + 1)
    · exact pow_le_pow_right₀ (by linarith) (by omega)
  have hsplit : ∀ c : List ℝ, c.length = 10 →
      calculate_npv (build_cash_flows c P true) r =
        (∑ t ∈ Finset.range 10,
          (build_cash_flows c P true).getD (t + 1) 0 / (1 + r) ^ (t + 1)) +
        -CO_INVEST_MM := by
    intro c hc
    rw [calculate_npv_sum, build_cash_flows_length _ _ hc hP]
    rw [show (11 : ℕ) = 10 + 1 from rfl, Finset.sum_range_succ']
    rw [build_cash_flows_getD_zero]
    norm_num
  rw [hsplit _ hl2, hsplit _ hl1]
  apply add_le_add_right
  rw [← sub_nonneg, ← Finset.sum_sub_distrib]
  have hsc : ∑ t ∈ Finset.range 10,
      ((build_cash_flows (delay_non_pdp_yields y d1) P true).getD (t + 1) 0 /
          (1 + r) ^ (t + 1) -
        (build_cash_flows (delay_non_pdp_yields y d2) P true).getD (t + 1) 0 /
          (1 + r) ^ (t + 1)) =
      ∑ t ∈ Finset.range 10,
        npvWeight P r t * (delayMass y d1 t - delayMass y d2 t) := by
    apply Finset.sum_congr rfl
    intro t ht'
    have ht : t < 10 := Finset.mem_range.mp ht'
    rw [build_cash_flows_getD _ _ hl1 hP t ht, build_cash_flows_getD _ _ hl2 hP t ht,
      delay_getD y hy d1 t ht, delay_getD y hy d2 t ht, npvWeight]
    ring
  rw [hsc, abel10 (npvWeight P r) (fun t => delayMass y d1 t - delayMass y d2 t)]
  apply add_nonneg
  · apply Finset.sum_nonneg
    intro T hT'
    have hT : T < 9 := Finset.mem_range.mp hT'
    exact mul_nonneg (sub_nonneg.mpr (hκmono T hT)) (hD T)
  · exact mul_nonneg (hκnn 9 (by omega)) (hD 9)

/-- C1 amended witness: unit curve, constant unit prices, rate zero, delays
zero and one. -/
theorem npv_nonincreasing_in_delay_witness :
    calculate_npv (build_cash_flows
      (delay_non_pdp_yields (List.replicate 10 1) 1) (List.replicate 10 1) true) 0 ≤
    calculate_npv (build_cash_flows
      (delay_non_pdp_yields (List.replicate 10 1) 0) (List.replicate 10 1) true) 0 :=
  npv_nonincreasing_in_delay (List.replicate 10 1) (List.replicate 10 1)
    (by simp) (by simp)
    (by intro v hv; rw [List.eq_of_mem_replicate hv]; norm_num)
    (by intro q hq; rw [List.eq_of_mem_replicate hq]; norm_num)
    (by
      intro i j hij hj
      have hrep : ∀ k : ℕ, k < 10 → (List.replicate 10 (1:ℝ)).getD k 0 = 1 := by
        intro k hk
        rw [List.getD_eq_getElem _ 0 (by simpa using hk), List.getElem_replicate]
      rw [hrep j hj, hrep i (by omega)])
    0 le_rfl 0 1 (by norm_num)
